import Mathlib

/-!
Shallow embedding of the background-service supervisor in
`web/lib/service.py` (classes Holdoff, WaitableHoldoff, Service,
ServiceManager), together with proofs of the specification claims.

Time is modelled as a rational number of seconds.  The blocking call
`Event.wait(rem)` is modelled by an oracle (`WaitOutcome`) describing
whether the event was set before the timeout expired, and at which
instant the woken thread re-reads the clock.
-/

namespace ServicePy

/-- Combined model of `Holdoff` and its subclass `WaitableHoldoff`:
a deadline (an absolute timestamp) plus a manual-reset wake event
(`threading.Event`), initially cleared. -/
structure WaitableHoldoff where
  deadline : ℚ
  event : Bool
deriving DecidableEq, Repr

namespace WaitableHoldoff

/-- Python `Holdoff.remaining`: `(self.deadline - datetime.now()).total_seconds()`. -/
def remaining (w : WaitableHoldoff) (now : ℚ) : ℚ :=
  w.deadline - now

/-- Python `Holdoff.passed`: `self.remaining < 0`. -/
def passed (w : WaitableHoldoff) (now : ℚ) : Bool :=
  decide (w.remaining now < 0)

/-- Python `Holdoff.reset(delay=None)`: `self.deadline = datetime.now()`,
then `if delay: self.deadline += timedelta(seconds=delay)`.  Note the
truthiness test: `delay=0` and `delay=None` both leave the deadline at
`now`. -/
def reset (w : WaitableHoldoff) (now : ℚ) (delay : Option ℚ) : WaitableHoldoff :=
  match delay with
  | none => { w with deadline := now }
  | some d => if d = 0 then { w with deadline := now } else { w with deadline := now + d }

/-- Python `WaitableHoldoff.signal`: `self._event.set()`. -/
def signal (w : WaitableHoldoff) : WaitableHoldoff :=
  { w with event := true }

/-- Oracle describing how the blocking call `self._event.wait(rem)`
resolved: `timeout` means the event was never set within the timeout;
`signaled tWake` means the event was set and the woken thread re-reads
the clock at instant `tWake` (which may be past the deadline: that is
the race the return value of `wait` arbitrates). -/
inductive WaitOutcome where
  | timeout : WaitOutcome
  | signaled : ℚ → WaitOutcome
deriving DecidableEq, Repr

/-- Python `WaitableHoldoff.wait`, called at instant `tCall`:

    rem = self.remaining
    if rem < 0:
        self._event.clear()
        return True
    if self._event.wait(rem):
        self._event.clear()
        return self.passed
    else:
        return True

Returns the boolean result together with the updated holdoff state. -/
def wait (w : WaitableHoldoff) (tCall : ℚ) (o : WaitOutcome) : Bool × WaitableHoldoff :=
  let rem := w.remaining tCall
  if rem < 0 then
    (true, { w with event := false })
  else
    match o with
    | .signaled tWake => (w.passed tWake, { w with event := false })
    | .timeout => (true, w)

end WaitableHoldoff

/-- Python exception classes relevant to the supervisor.  In the source,
ServiceStoppedError derives from ServiceError, which derives from
Exception; KeyError and AssertionError are builtins unrelated to
ServiceError. -/
inductive PyExc where
  | keyError
  | serviceError
  | serviceStoppedError
  | assertionError
deriving DecidableEq, Repr

/-- Python isinstance check against ServiceError: true exactly for
ServiceError itself and its subclass ServiceStoppedError. -/
def PyExc.isServiceError : PyExc → Bool
  | .serviceError => true
  | .serviceStoppedError => true
  | _ => false

/-- Python RunState enum of the Service class. -/
inductive RunState where
  | Starting
  | Running
  | Idle
  | Stopping
  | Stopped
deriving DecidableEq, Repr

/-- Outcome of one invocation of a worker hook: normal return, or a
raised exception classified the way the except-clauses of the loop
classify it (ServiceRestartSignal, ServiceStoppedError, TimeoutError,
or any other Exception). -/
inductive HookResult where
  | ok
  | restartSignal
  | stoppedError
  | timeoutError
  | otherError
deriving DecidableEq, Repr

/-- Fields of a Service object that the run loop reads and writes:
running, state, wanted, the private shutdown-request flag, and the
WaitableHoldoff used for scheduling. -/
structure ServiceState where
  running : Bool
  state : RunState
  wanted : Bool
  shutdownRequested : Bool
  ev : WaitableHoldoff
deriving DecidableEq, Repr

/-- Oracle for one iteration of the run loop: the instant `t0` at which
the iteration's wait (or first reset) executes, the instant `t1` of any
reset performed after the wait or after the hook call, how the blocking
wait resolved, and how each worker hook would resolve if invoked. -/
structure StepOracle where
  t0 : ℚ
  t1 : ℚ
  waitOutcome : WaitableHoldoff.WaitOutcome
  startResult : HookResult
  runResult : HookResult
  stopResult : HookResult

namespace Service

/-- Python Service attempting start:

    try:
        self.worker_start()
    except Exception as E:
        if self.wanted:
            (logging only, by exception class)
            self._event.reset(delay=1)
        else:
            (logging only)
            self.state = RunState.Stopped
    else:
        self.state = RunState.Running

Every raised exception is caught; logging differs by class but the
state effect does not. -/
def attemptStart (s : ServiceState) (o : StepOracle) : ServiceState :=
  match o.startResult with
  | .ok => { s with state := RunState.Running }
  | _ =>
      if s.wanted then { s with ev := s.ev.reset o.t1 (some 1) }
      else { s with state := RunState.Stopped }

/-- Python Service attempting run:

    try:
        self._event.reset(delay=0.1)
        self.worker_run(timeout=0.1)
    except ServiceRestartSignal:
        self.state = RunState.Stopping
        self._event.reset(delay=1)
    except Exception:
        self.state = RunState.Stopping
        self._event.reset()
-/
def attemptRun (s : ServiceState) (o : StepOracle) : ServiceState :=
  let s1 : ServiceState := { s with ev := s.ev.reset o.t0 (some (1 / 10)) }
  match o.runResult with
  | .ok => s1
  | .restartSignal =>
      { s1 with state := RunState.Stopping, ev := s1.ev.reset o.t1 (some 1) }
  | _ =>
      { s1 with state := RunState.Stopping, ev := s1.ev.reset o.t1 none }

/-- Python Service attempting stop:

    try:
        self.worker_stop()
    except Exception as E:
        self._event.reset(delay=1)
    else:
        self.state = RunState.Stopped
-/
def attemptStop (s : ServiceState) (o : StepOracle) : ServiceState :=
  match o.stopResult with
  | .ok => { s with state := RunState.Stopped }
  | _ => { s with ev := s.ev.reset o.t1 (some 1) }

/-- One iteration of the while-running body of Service.run, the match
on self.state.  The result is an Except so that an exception escaping
the loop body would be visible as an error value; the proofs show the
hook-driven paths never produce one. -/
def step (s : ServiceState) (o : StepOracle) : Except PyExc ServiceState :=
  match s.state with
  | RunState.Starting =>
      let r := s.ev.wait o.t0 o.waitOutcome
      if r.1 then Except.ok (attemptStart { s with ev := r.2 } o)
      else Except.ok { s with ev := r.2.reset o.t1 (some 1) }
  | RunState.Running =>
      if s.wanted then Except.ok (attemptRun s o)
      else Except.ok { s with state := RunState.Idle, ev := s.ev.reset o.t0 (some 5) }
  | RunState.Idle =>
      if s.shutdownRequested then
        Except.ok { s with state := RunState.Stopping, ev := s.ev.reset o.t1 none }
      else
        let r := s.ev.wait o.t0 o.waitOutcome
        if r.1 then
          Except.ok { s with state := RunState.Stopping, ev := r.2.reset o.t1 none }
        else if s.wanted then
          Except.ok { s with state := RunState.Running, ev := r.2 }
        else
          Except.ok { s with ev := r.2 }
  | RunState.Stopping =>
      let r := s.ev.wait o.t0 o.waitOutcome
      if r.1 then Except.ok (attemptStop { s with ev := r.2 } o)
      else Except.ok { s with ev := r.2.reset o.t1 (some 1) }
  | RunState.Stopped =>
      let r := s.ev.wait o.t0 o.waitOutcome
      if s.wanted then Except.ok { s with state := RunState.Starting, ev := r.2 }
      else Except.ok { s with ev := r.2.reset o.t1 (some 10) }

end Service

/-- Python dict lookup d[k] on an insertion-ordered association list
(first match; keys are unique by construction of register). -/
def alookup {β : Type} (xs : List (String × β)) (k : String) : Option β :=
  match xs with
  | [] => none
  | p :: rest => if p.1 = k then some p.2 else alookup rest k

/-- Python dict assignment d[k] = v for a key that is already present. -/
def aset {β : Type} (xs : List (String × β)) (k : String) (v : β) : List (String × β) :=
  xs.map fun p => if p.1 = k then (p.1, v) else p

/-- Update-in-place of the value stored at a present key. -/
def amodify {β : Type} (xs : List (String × β)) (k : String) (f : β → β) :
    List (String × β) :=
  xs.map fun p => if p.1 = k then (p.1, f p.2) else p

/-- Python del d[k]. -/
def aerase {β : Type} (xs : List (String × β)) (k : String) : List (String × β) :=
  xs.filter fun p => decide (p.1 ≠ k)

/-- The fields of a registered Service object that the manager reads or
writes, plus counters recording how many times the manager model has
invoked the service's start() and stop() methods. -/
structure SvcHandle where
  startCount : Nat
  stopCount : Nat
  wanted : Bool
  rstate : RunState
deriving DecidableEq, Repr

/-- A Service as freshly constructed: state Stopped, not wanted, and no
start or stop calls recorded yet. -/
def newHandle : SvcHandle :=
  { startCount := 0, stopCount := 0, wanted := false, rstate := RunState.Stopped }

/-- Effect of Service.start() on a registered service as visible to the
manager model: wanted becomes true and one more start() is recorded. -/
def hStart (h : SvcHandle) : SvcHandle :=
  { h with wanted := true, startCount := h.startCount + 1 }

/-- Effect of Service.stop(): wanted becomes false and one more stop()
is recorded. -/
def hStop (h : SvcHandle) : SvcHandle :=
  { h with wanted := false, stopCount := h.stopCount + 1 }

/-- The two dicts owned by ServiceManager: svcs and refs. -/
structure MgrState where
  svcs : List (String × SvcHandle)
  refs : List (String × Int)
deriving DecidableEq, Repr

/-- ServiceManager.__init__: both dicts empty. -/
def emptyMgr : MgrState := ⟨[], []⟩

/-- Invariant of the manager: both dicts hold exactly the same names in
the same insertion order, and every refcount is nonnegative. -/
def MgrInv (m : MgrState) : Prop :=
  m.svcs.map Prod.fst = m.refs.map Prod.fst ∧ ∀ p ∈ m.refs, (0 : ℤ) ≤ p.2

namespace ServiceManager

/-- Python ServiceManager.register:

    if name in self:
        raise KeyError(...)
    self.svcs[name] = svc
    self.refs[name] = 0
-/
def register (m : MgrState) (name : String) (h : SvcHandle) : MgrState × Option PyExc :=
  if (alookup m.svcs name).isSome then (m, some PyExc.keyError)
  else ({ svcs := m.svcs ++ [(name, h)], refs := m.refs ++ [(name, 0)] }, none)

/-- Python ServiceManager.unregister:

    if name not in self:
        raise KeyError(...)
    if self.refs[name]:
        raise ServiceError(...)
    del self.svcs[name]
    del self.refs[name]
-/
def unregister (m : MgrState) (name : String) : MgrState × Option PyExc :=
  if (alookup m.svcs name).isSome = false then (m, some PyExc.keyError)
  else
    match alookup m.refs name with
    | none => (m, some PyExc.keyError)
    | some r =>
        if r ≠ 0 then (m, some PyExc.serviceError)
        else ({ svcs := aerase m.svcs name, refs := aerase m.refs name }, none)

/-- Python ServiceManager.put:

    if name not in self:
        raise KeyError(...)
    svc = self.svcs[name]
    assert self.refs[name]
    self.refs[name] -= 1
    if not self.refs[name]:
        svc.stop()

The assert raises AssertionError exactly when the refcount is 0 (the
only falsy integer). -/
def put (m : MgrState) (name : String) : MgrState × Option PyExc :=
  match alookup m.svcs name with
  | none => (m, some PyExc.keyError)
  | some _ =>
      match alookup m.refs name with
      | none => (m, some PyExc.keyError)
      | some r =>
          if r = 0 then (m, some PyExc.assertionError)
          else
            let m1 : MgrState := { m with refs := aset m.refs name (r - 1) }
            if r - 1 = 0 then
              ({ m1 with svcs := amodify m1.svcs name hStop }, none)
            else (m1, none)

/-- Python ServiceManager.get:

    if name not in self:
        raise KeyError(...)
    svc = self.svcs[name]
    self.refs[name] += 1
    if self.refs[name] == 1:
        svc.start()
    if ready:
        try:
            svc.await_ready()
        except ServiceError:
            self.put(name)
            raise
    return svc

The boolean `awaitFails` is the oracle for whether await_ready raises
its ServiceStoppedError (a subclass of ServiceError, hence caught); on
that path the reference just taken is released via put and the original
error re-raised, unless put itself raises first. -/
def get (m : MgrState) (name : String) (ready : Bool) (awaitFails : Bool) :
    MgrState × Option PyExc :=
  match alookup m.svcs name with
  | none => (m, some PyExc.keyError)
  | some _ =>
      match alookup m.refs name with
      | none => (m, some PyExc.keyError)
      | some r =>
          let m1 : MgrState := { m with refs := aset m.refs name (r + 1) }
          let m2 : MgrState :=
            if r + 1 = 1 then { m1 with svcs := amodify m1.svcs name hStart } else m1
          if ready && awaitFails then
            let pr := put m2 name
            match pr.2 with
            | some e => (pr.1, some e)
            | none => (pr.1, some PyExc.serviceStoppedError)
          else (m2, none)

/-- Python ServiceManager.borrow, a contextmanager:

    svc = self.get(name)
    try:
        yield svc
    finally:
        self.put(name)

The scoped block is an arbitrary state transformer that either returns
normally (second component none) or raises.  An exception from the
block propagates after the final put, unless put itself raises. -/
def borrow (m : MgrState) (name : String) (awaitFails : Bool)
    (body : MgrState → MgrState × Option PyExc) : MgrState × Option PyExc :=
  let g := get m name true awaitFails
  match g.2 with
  | some e => (g.1, some e)
  | none =>
      let b := body g.1
      let p := put b.1 name
      match p.2 with
      | some e2 => (p.1, some e2)
      | none => (p.1, b.2)

end ServiceManager

/-- One manager call, for reasoning about arbitrary call sequences. -/
inductive MgrOp where
  | regOp (name : String) (h : SvcHandle)
  | unregOp (name : String)
  | getOp (name : String) (ready : Bool) (awaitFails : Bool)
  | putOp (name : String)

/-- State reached after one manager call (the dicts are mutated in
place in Python, so the post-state is meaningful on error paths too). -/
def applyOp (m : MgrState) : MgrOp → MgrState × Option PyExc
  | .regOp name h => ServiceManager.register m name h
  | .unregOp name => ServiceManager.unregister m name
  | .getOp name ready fails => ServiceManager.get m name ready fails
  | .putOp name => ServiceManager.put m name

/-- State reached after a sequence of manager calls. -/
def runOps (m : MgrState) : List MgrOp → MgrState
  | [] => m
  | op :: rest => runOps (applyOp m op).1 rest

/-- Externally visible calls made by ServiceManager.atexit, in order. -/
inductive ExitEv where
  | dump
  | traceAll
  | traceThread (name : String)
  | stopEv (name : String)
  | awaitStoppedEv (name : String)
  | shutdownEv (name : String)
deriving DecidableEq, Repr

/-- First loop of atexit: `for svc in self.svcs.values(): if svc.state
!= RunState.Stopped: svc.stop()`. -/
def stopPhase : List (String × SvcHandle) → List ExitEv
  | [] => []
  | p :: rest =>
      (if p.2.rstate ≠ RunState.Stopped then [ExitEv.stopEv p.1] else []) ++ stopPhase rest

/-- Second loop of atexit: per service a trace_thread diagnostic then
`svc.await_stopped()`. -/
def awaitPhase : List (String × SvcHandle) → List ExitEv
  | [] => []
  | p :: rest => ExitEv.traceThread p.1 :: ExitEv.awaitStoppedEv p.1 :: awaitPhase rest

/-- Third loop of atexit: `for svc in self.svcs.values(): svc.shutdown()`. -/
def joinPhase : List (String × SvcHandle) → List ExitEv
  | [] => []
  | p :: rest => ExitEv.shutdownEv p.1 :: joinPhase rest

/-- Python ServiceManager.atexit as the sequence of externally visible
calls it performs: dump, trace_all_threads, the stop loop, dump, the
await loop, dump, the shutdown (join) loop.  dump only logs, so it
contributes an event and no state change. -/
def atexitTrace (m : MgrState) : List ExitEv :=
  [ExitEv.dump, ExitEv.traceAll] ++ stopPhase m.svcs ++ [ExitEv.dump]
    ++ awaitPhase m.svcs ++ [ExitEv.dump] ++ joinPhase m.svcs

/-- True exactly for the join events of the trace. -/
def isJoin : ExitEv → Bool
  | .shutdownEv _ => true
  | _ => false

/-- The name carried by a stop event. -/
def stopName : ExitEv → Option String
  | .stopEv n => some n
  | _ => none

/-- The name carried by an awaitStopped event. -/
def awaitName : ExitEv → Option String
  | .awaitStoppedEv n => some n
  | _ => none

/-- One snapshot of the three fields Service.await_ready reads during
one trip around its polling loop. -/
structure Obs where
  running : Bool
  wanted : Bool
  state : RunState
deriving DecidableEq, Repr

/-- Python Service.await_ready:

    while True:
        if not (self.running and self.wanted):
            raise ServiceStoppedError(...)
        if self.state == RunState.Running:
            return True
        self.idle(timeout=0.4)

driven by the per-iteration snapshots of (running, wanted, state);
none means the supplied schedule ran out before the loop settled. -/
def await_ready : List Obs → Option (Except PyExc Bool)
  | [] => none
  | ob :: rest =>
      if (ob.running && ob.wanted) = false then
        some (Except.error PyExc.serviceStoppedError)
      else if ob.state = RunState.Running then
        some (Except.ok true)
      else
        await_ready rest

end ServicePy

namespace ServicePy

open WaitableHoldoff

/-- C1: wait() returns false only when the wake signal fired while the
deadline had not yet passed; it returns true when the deadline had
already elapsed at call time, on timeout, and when signaled after the
deadline had already elapsed (the race favors deadline-passed); the
signal-path return clears the signal. -/
theorem wait_return_spec (w : WaitableHoldoff) (tCall : ℚ) (o : WaitOutcome) :
    ((w.wait tCall o).1 = false ↔
      (0 ≤ w.deadline - tCall ∧ ∃ tWake, o = .signaled tWake ∧ 0 ≤ w.deadline - tWake))
    ∧ (w.deadline - tCall < 0 → (w.wait tCall o).1 = true)
    ∧ (o = .timeout → (w.wait tCall o).1 = true)
    ∧ (∀ tWake, o = .signaled tWake → w.deadline - tWake < 0 → (w.wait tCall o).1 = true)
    ∧ (∀ tWake, o = .signaled tWake → 0 ≤ w.deadline - tCall →
        (w.wait tCall o).2.event = false) := by
  unfold WaitableHoldoff.wait WaitableHoldoff.remaining WaitableHoldoff.passed
  by_cases hc : w.deadline - tCall < 0
  · refine ⟨?_, ?_, ?_, ?_, ?_⟩
    · simp [hc, not_le.mpr hc]
    · intro _; simp [hc]
    · intro _; simp [hc]
    · intro _ _ _; simp [hc]
    · intro tWake _ hle; exact absurd hle (not_le.mpr hc)
  · cases o with
    | timeout =>
        refine ⟨?_, ?_, ?_, ?_, ?_⟩
        · simp [hc]
        · intro h; exact absurd h hc
        · intro _; simp [hc]
        · intro tWake h; cases h
        · intro tWake h; cases h
    | signaled tWake =>
        refine ⟨?_, ?_, ?_, ?_, ?_⟩
        · simp only [hc, if_neg, not_false_iff, decide_eq_false_iff_not, not_lt]
          constructor
          · intro h
            exact ⟨not_lt.mp hc, tWake, rfl, h⟩
          · rintro ⟨_, tw, heq, htw⟩
            cases heq
            exact htw
        · intro h; exact absurd h hc
        · intro h; cases h
        · intro tw heq hlt
          cases heq
          simp [WaitableHoldoff.remaining, hc, hlt]
        · intro tw heq _
          cases heq
          simp [hc]

/-- Witness for C1: a holdoff with deadline 10, signaled and re-checked
at instant 3 after a call at instant 0, returns false. -/
theorem wait_return_spec_witness :
    (WaitableHoldoff.wait ⟨10, true⟩ 0 (.signaled 3)).1 = false :=
  (wait_return_spec ⟨10, true⟩ 0 (.signaled 3)).1.mpr
    ⟨by norm_num, 3, rfl, by norm_num⟩

/-- C9: when wait() is called with the deadline already overdue, it
clears the wake signal and returns true without consulting the event,
so a pending signal is silently consumed regardless of how the blocking
wait would have resolved. -/
theorem wait_overdue_consumes_signal (w : WaitableHoldoff) (tCall : ℚ)
    (o : WaitOutcome) (h : w.deadline - tCall < 0) :
    w.wait tCall o = (true, { w with event := false }) := by
  unfold WaitableHoldoff.wait WaitableHoldoff.remaining
  simp only [h, if_pos]

/-- Witness for C9: deadline 0, called at instant 5, with a pending
signal that would otherwise fire at instant 1: the signal is consumed
and the result is true. -/
theorem wait_overdue_consumes_signal_witness :
    WaitableHoldoff.wait ⟨0, true⟩ 5 (.signaled 1) = (true, ⟨0, false⟩) :=
  wait_overdue_consumes_signal ⟨0, true⟩ 5 (.signaled 1) (by norm_num)

theorem alookup_mem {β : Type} (xs : List (String × β)) (k : String) (v : β)
    (h : alookup xs k = some v) : (k, v) ∈ xs := by
  induction xs with
  | nil => simp [alookup] at h
  | cons p rest ih =>
      obtain ⟨a, b⟩ := p
      by_cases hp : a = k
      · subst hp
        simp [alookup] at h
        subst h
        exact List.mem_cons_self _ _
      · simp only [alookup, hp, if_false, if_neg hp] at h
        exact List.mem_cons_of_mem _ (ih h)

theorem alookup_isSome_iff {β : Type} (xs : List (String × β)) (k : String) :
    (alookup xs k).isSome = true ↔ k ∈ xs.map Prod.fst := by
  induction xs with
  | nil => simp [alookup]
  | cons p rest ih =>
      by_cases hp : p.1 = k
      · simp [alookup, hp, eq_comm]
      · simp only [alookup, if_neg hp, List.map_cons, List.mem_cons, ih]
        constructor
        · intro hh; exact Or.inr hh
        · rintro (hh | hh)
          · exact absurd hh.symm hp
          · exact hh

theorem alookup_aset {β : Type} (xs : List (String × β)) (k : String) (v : β) :
    alookup (aset xs k v) k = (alookup xs k).map fun _ => v := by
  induction xs with
  | nil => rfl
  | cons p rest ih =>
      by_cases hp : p.1 = k
      · simp [aset, alookup, hp]
      · simp only [aset, List.map_cons, if_neg hp, alookup]
        simpa [aset] using ih

theorem alookup_amodify {β : Type} (xs : List (String × β)) (k : String) (f : β → β) :
    alookup (amodify xs k f) k = (alookup xs k).map f := by
  induction xs with
  | nil => rfl
  | cons p rest ih =>
      by_cases hp : p.1 = k
      · simp [amodify, alookup, hp]
      · simp only [amodify, List.map_cons, if_neg hp, alookup]
        simpa [amodify] using ih

theorem map_fst_aset {β : Type} (xs : List (String × β)) (k : String) (v : β) :
    (aset xs k v).map Prod.fst = xs.map Prod.fst := by
  unfold aset
  rw [List.map_map]
  refine List.map_congr_left ?_
  intro p _
  by_cases hp : p.1 = k <;> simp [hp]

theorem map_fst_amodify {β : Type} (xs : List (String × β)) (k : String) (f : β → β) :
    (amodify xs k f).map Prod.fst = xs.map Prod.fst := by
  unfold amodify
  rw [List.map_map]
  refine List.map_congr_left ?_
  intro p _
  by_cases hp : p.1 = k <;> simp [hp]

theorem map_fst_aerase {β : Type} (xs : List (String × β)) (k : String) :
    (aerase xs k).map Prod.fst = (xs.map Prod.fst).filter fun n => decide (n ≠ k) := by
  induction xs with
  | nil => rfl
  | cons p rest ih =>
      by_cases hp : p.1 = k <;>
        simp [aerase, List.filter_cons, hp, ih] <;>
        simpa [aerase] using ih

theorem nonneg_aset (xs : List (String × Int)) (k : String) (v : Int)
    (hxs : ∀ p ∈ xs, (0 : ℤ) ≤ p.2) (hv : (0 : ℤ) ≤ v) :
    ∀ p ∈ aset xs k v, (0 : ℤ) ≤ p.2 := by
  intro p hp
  unfold aset at hp
  rw [List.mem_map] at hp
  obtain ⟨q, hq, rfl⟩ := hp
  by_cases hk : q.1 = k
  · simp only [hk, if_pos rfl, if_true]
    simpa using hv
  · simp only [if_neg hk]
    exact hxs q hq

theorem put_spec (m : MgrState) (name : String)
    (hS : (alookup m.svcs name).isSome = true)
    (r : Int) (hR : alookup m.refs name = some r) (hr : r ≠ 0) :
    (ServiceManager.put m name).2 = none
    ∧ (ServiceManager.put m name).1.refs = aset m.refs name (r - 1)
    ∧ (ServiceManager.put m name).1.svcs
        = (if r - 1 = 0 then amodify m.svcs name hStop else m.svcs) := by
  obtain ⟨sv, hsv⟩ := Option.isSome_iff_exists.mp hS
  unfold ServiceManager.put
  rw [hsv, hR]
  by_cases h1 : r - 1 = 0 <;> simp [hr, h1]

theorem put_zero_assert (m : MgrState) (name : String)
    (hS : (alookup m.svcs name).isSome = true)
    (hR : alookup m.refs name = some 0) :
    ServiceManager.put m name = (m, some PyExc.assertionError) := by
  obtain ⟨sv, hsv⟩ := Option.isSome_iff_exists.mp hS
  unfold ServiceManager.put
  rw [hsv, hR]
  simp

theorem get_spec (m : MgrState) (name : String) (h : SvcHandle) (r : Int)
    (hs : alookup m.svcs name = some h) (hr : alookup m.refs name = some r)
    (hr0 : 0 ≤ r) (fails : Bool) :
    (fails = false →
      (ServiceManager.get m name true fails).2 = none
      ∧ alookup (ServiceManager.get m name true fails).1.refs name = some (r + 1)
      ∧ alookup (ServiceManager.get m name true fails).1.svcs name
          = some (if r = 0 then hStart h else h))
    ∧ (fails = true →
      (ServiceManager.get m name true fails).2 = some PyExc.serviceStoppedError
      ∧ alookup (ServiceManager.get m name true fails).1.refs name = some r
      ∧ alookup (ServiceManager.get m name true fails).1.svcs name
          = some (if r = 0 then hStop (hStart h) else h)) := by
  constructor
  · rintro rfl
    unfold ServiceManager.get
    rw [hs, hr]
    by_cases h0 : r = 0
    · subst h0
      simp [alookup_aset, alookup_amodify, hs, hr]
    · have hA : ¬(r + 1 = 1) := by omega
      simp [alookup_aset, alookup_amodify, hs, hr, h0, hA]
  · rintro rfl
    unfold ServiceManager.get ServiceManager.put
    rw [hs, hr]
    by_cases h0 : r = 0
    · subst h0
      simp [alookup_aset, alookup_amodify, hs, hr]
    · have hA : ¬(r + 1 = 1) := by omega
      have hB : ¬(r + 1 = 0) := by omega
      have hC : r + 1 - 1 = r := by omega
      simp [alookup_aset, alookup_amodify, hs, hr, h0, hA, hB, hC]

/-- C3: get with ready true on a registered name releases the reference
it took when the readiness wait fails, so the refcount after the error
equals its value before the call; the first reference (refcount 0
before the call) triggers exactly one start() call, and a get on an
already-referenced name performs no start() call. -/
theorem get_refcount_symmetry (m : MgrState) (name : String) (h : SvcHandle) (r : Int)
    (hs : alookup m.svcs name = some h) (hr : alookup m.refs name = some r)
    (hr0 : 0 ≤ r) :
    ((ServiceManager.get m name true true).2 = some PyExc.serviceStoppedError
      ∧ alookup (ServiceManager.get m name true true).1.refs name = some r)
    ∧ (r = 0 → ∀ fails, ∃ h₂,
        alookup (ServiceManager.get m name true fails).1.svcs name = some h₂
        ∧ h₂.startCount = h.startCount + 1)
    ∧ (0 < r → ∀ fails, ∃ h₂,
        alookup (ServiceManager.get m name true fails).1.svcs name = some h₂
        ∧ h₂.startCount = h.startCount) := by
  have hT := (get_spec m name h r hs hr hr0 true).2 rfl
  have hF := (get_spec m name h r hs hr hr0 false).1 rfl
  refine ⟨⟨hT.1, hT.2.1⟩, ?_, ?_⟩
  · rintro rfl fails
    cases fails
    · refine ⟨hStart h, ?_, rfl⟩
      simpa using hF.2.2
    · refine ⟨hStop (hStart h), ?_, rfl⟩
      simpa using hT.2.2
  · intro hpos fails
    have h0 : ¬(r = 0) := by omega
    cases fails
    · refine ⟨h, ?_, rfl⟩
      simpa [h0] using hF.2.2
    · refine ⟨h, ?_, rfl⟩
      simpa [h0] using hT.2.2

/-- Witness for C3: a manager with one registered, unreferenced service
named a, on which the readiness wait fails: the call errors with the
stopped error and the refcount is back at 0. -/
theorem get_refcount_symmetry_witness :
    (ServiceManager.get ⟨[("a", newHandle)], [("a", 0)]⟩ "a" true true).2
        = some PyExc.serviceStoppedError
    ∧ alookup (ServiceManager.get ⟨[("a", newHandle)], [("a", 0)]⟩ "a" true true).1.refs "a"
        = some 0 :=
  (get_refcount_symmetry ⟨[("a", newHandle)], [("a", 0)]⟩ "a" newHandle 0
    (by decide) (by decide) le_rfl).1

theorem inv_register (m : MgrState) (name : String) (h : SvcHandle) (hm : MgrInv m) :
    MgrInv (ServiceManager.register m name h).1 := by
  obtain ⟨hmap, hpos⟩ := hm
  unfold ServiceManager.register
  by_cases hp : (alookup m.svcs name).isSome = true
  · simp only [hp, if_true, if_pos]
    exact ⟨hmap, hpos⟩
  · simp only [hp, if_false, if_neg, Bool.not_eq_true]
    refine ⟨?_, ?_⟩
    · simp [hmap]
    · intro p hp2
      rcases List.mem_append.mp hp2 with h1 | h1
      · exact hpos p h1
      · simp only [List.mem_singleton] at h1
        subst h1
        exact le_refl 0

theorem inv_unregister (m : MgrState) (name : String) (hm : MgrInv m) :
    MgrInv (ServiceManager.unregister m name).1 := by
  obtain ⟨hmap, hpos⟩ := hm
  unfold ServiceManager.unregister
  by_cases hp : (alookup m.svcs name).isSome = false
  · simp only [hp, if_true, if_pos]
    exact ⟨hmap, hpos⟩
  · simp only [hp, if_false, if_neg, Bool.not_eq_false]
    cases hrf : alookup m.refs name with
    | none => exact ⟨hmap, hpos⟩
    | some r =>
        dsimp only
        by_cases h0 : r ≠ 0
        · rw [if_pos h0]
          exact ⟨hmap, hpos⟩
        · rw [if_neg h0]
          refine ⟨?_, ?_⟩
          · rw [map_fst_aerase, map_fst_aerase, hmap]
          · intro p hp2
            simp only [aerase, List.mem_filter] at hp2
            exact hpos p hp2.1

theorem inv_put (m : MgrState) (name : String) (hm : MgrInv m) :
    MgrInv (ServiceManager.put m name).1 := by
  obtain ⟨hmap, hpos⟩ := hm
  unfold ServiceManager.put
  cases hsv : alookup m.svcs name with
  | none => exact ⟨hmap, hpos⟩
  | some sv =>
      cases hrf : alookup m.refs name with
      | none => exact ⟨hmap, hpos⟩
      | some r =>
          dsimp only
          by_cases h0 : r = 0
          · rw [if_pos h0]
            exact ⟨hmap, hpos⟩
          · have hnn : (0 : ℤ) ≤ r - 1 := by
              have := hpos _ (alookup_mem _ _ _ hrf)
              omega
            rw [if_neg h0]
            by_cases h1 : r - 1 = 0
            · rw [if_pos h1]
              exact ⟨by rw [map_fst_amodify, map_fst_aset, hmap],
                     nonneg_aset _ _ _ hpos hnn⟩
            · rw [if_neg h1]
              exact ⟨by rw [map_fst_aset, hmap], nonneg_aset _ _ _ hpos hnn⟩

theorem inv_get (m : MgrState) (name : String) (ready fails : Bool) (hm : MgrInv m) :
    MgrInv (ServiceManager.get m name ready fails).1 := by
  obtain ⟨hmap, hpos⟩ := hm
  unfold ServiceManager.get
  cases hsv : alookup m.svcs name with
  | none => exact ⟨hmap, hpos⟩
  | some sv =>
      cases hrf : alookup m.refs name with
      | none => exact ⟨hmap, hpos⟩
      | some r =>
          have hr1 : (0 : ℤ) ≤ r + 1 := by
            have := hpos _ (alookup_mem _ _ _ hrf)
            omega
          have hInv1 : MgrInv ⟨m.svcs, aset m.refs name (r + 1)⟩ :=
            ⟨by rw [map_fst_aset]; exact hmap, nonneg_aset _ _ _ hpos hr1⟩
          have hInv2 : MgrInv ⟨amodify m.svcs name hStart, aset m.refs name (r + 1)⟩ :=
            ⟨by rw [map_fst_amodify, map_fst_aset]; exact hmap,
             nonneg_aset _ _ _ hpos hr1⟩
          dsimp only
          by_cases hc : r + 1 = 1
          · rw [if_pos hc]
            by_cases hb : (ready && fails) = true
            · rw [if_pos hb]
              cases hpr : (ServiceManager.put ⟨amodify m.svcs name hStart,
                  aset m.refs name (r + 1)⟩ name).2 <;> exact inv_put _ _ hInv2
            · rw [if_neg hb]
              exact hInv2
          · rw [if_neg hc]
            by_cases hb : (ready && fails) = true
            · rw [if_pos hb]
              cases hpr : (ServiceManager.put ⟨m.svcs, aset m.refs name (r + 1)⟩ name).2 <;>
                exact inv_put _ _ hInv1
            · rw [if_neg hb]
              exact hInv1

theorem inv_applyOp (m : MgrState) (op : MgrOp) (hm : MgrInv m) :
    MgrInv (applyOp m op).1 := by
  cases op with
  | regOp name h => exact inv_register m name h hm
  | unregOp name => exact inv_unregister m name hm
  | getOp name ready fails => exact inv_get m name ready fails hm
  | putOp name => exact inv_put m name hm

theorem inv_runOps (m : MgrState) (ops : List MgrOp) (hm : MgrInv m) :
    MgrInv (runOps m ops) := by
  induction ops generalizing m with
  | nil => exact hm
  | cons op rest ih => exact ih _ (inv_applyOp m op hm)

theorem unregister_busy (m : MgrState) (name : String) (r : Int) (hm : MgrInv m)
    (hr : alookup m.refs name = some r) (h0 : r ≠ 0) :
    ServiceManager.unregister m name = (m, some PyExc.serviceError) := by
  have hS : (alookup m.svcs name).isSome = true := by
    rw [alookup_isSome_iff, hm.1, ← alookup_isSome_iff, hr]
    rfl
  unfold ServiceManager.unregister
  simp [hS, hr, h0]

/-- C5: every manager call preserves the invariant that the refcount of
every name is nonnegative and the svcs and refs dicts hold exactly the
same names, so any sequence of calls started from an invariant state
keeps it; and unregister fails with the service error whenever the
refcount of the name is nonzero. -/
theorem mgr_refcount_invariants (m : MgrState) (hm : MgrInv m) :
    (∀ op, MgrInv (applyOp m op).1)
    ∧ (∀ ops, MgrInv (runOps m ops))
    ∧ (∀ name r, alookup m.refs name = some r → r ≠ 0 →
        ServiceManager.unregister m name = (m, some PyExc.serviceError)) :=
  ⟨fun op => inv_applyOp m op hm,
   fun ops => inv_runOps m ops hm,
   fun name r hr h0 => unregister_busy m name r hm hr h0⟩

/-- Witness for C5: the invariant holds after register, get and put of
one name starting from the empty manager. -/
theorem mgr_refcount_invariants_witness :
    MgrInv (runOps emptyMgr
      [MgrOp.regOp "a" newHandle, MgrOp.getOp "a" true false, MgrOp.putOp "a"]) :=
  (mgr_refcount_invariants emptyMgr ⟨rfl, by simp [emptyMgr]⟩).2.1 _

/-- C6 counterexample: registering the name a twice raises KeyError,
which is not the generic service error, refuting the claim that every
manager-level misuse raises the base service-error signal. -/
theorem mgr_misuse_error_counterexample :
    (ServiceManager.register
        (ServiceManager.register emptyMgr "a" newHandle).1 "a" newHandle).2
      = some PyExc.keyError
    ∧ PyExc.keyError ≠ PyExc.serviceError
    ∧ PyExc.isServiceError PyExc.keyError = false := by
  decide

/-- C6 amended: unregistering a name with outstanding references raises
the generic service error, but registering an already-present name
raises KeyError and releasing a name whose refcount is already 0 fails
the assert with AssertionError; neither of those two is a service
error. -/
theorem mgr_misuse_error_classes (m : MgrState) (name : String) (h : SvcHandle) :
    ((alookup m.svcs name).isSome = true →
      ServiceManager.register m name h = (m, some PyExc.keyError))
    ∧ (∀ r, alookup m.refs name = some r → r ≠ 0 →
        (alookup m.svcs name).isSome = true →
        ServiceManager.unregister m name = (m, some PyExc.serviceError))
    ∧ (alookup m.refs name = some 0 → (alookup m.svcs name).isSome = true →
        ServiceManager.put m name = (m, some PyExc.assertionError))
    ∧ PyExc.isServiceError PyExc.serviceError = true
    ∧ PyExc.isServiceError PyExc.keyError = false
    ∧ PyExc.isServiceError PyExc.assertionError = false := by
  refine ⟨?_, ?_, ?_, rfl, rfl, rfl⟩
  · intro hS
    unfold ServiceManager.register
    simp [hS]
  · intro r hr h0 hS
    unfold ServiceManager.unregister
    simp [hS, hr, h0]
  · intro hr hS
    exact put_zero_assert m name hS hr

/-- Witness for C6 amended: releasing the registered but unreferenced
name a fails the assert. -/
theorem mgr_misuse_error_classes_witness :
    ServiceManager.put ⟨[("a", newHandle)], [("a", 0)]⟩ "a"
      = (⟨[("a", newHandle)], [("a", 0)]⟩, some PyExc.assertionError) :=
  (mgr_misuse_error_classes ⟨[("a", newHandle)], [("a", 0)]⟩ "a" newHandle).2.2.1
    (by decide) (by decide)

/-- C2: in the Idle state, a wake that arrives before the deadline while
the service is not wanted and no shutdown has been requested takes no
branch of the Idle case: the state field and the deadline are unchanged
by that iteration (only the consumed wake signal is cleared), so the
next iteration re-evaluates against the same deadline. -/
theorem idle_early_wake_noop (s : ServiceState) (o : StepOracle)
    (hstate : s.state = RunState.Idle)
    (hshut : s.shutdownRequested = false)
    (hwant : s.wanted = false)
    (hcall : 0 ≤ s.ev.deadline - o.t0)
    (tw : ℚ) (hout : o.waitOutcome = .signaled tw)
    (hearly : 0 ≤ s.ev.deadline - tw) :
    Service.step s o = Except.ok { s with ev := { s.ev with event := false } } := by
  unfold Service.step
  rw [hstate]
  simp [hshut, hwant, hout, WaitableHoldoff.wait, WaitableHoldoff.remaining,
    WaitableHoldoff.passed, not_lt.mpr hcall, not_lt.mpr hearly]

/-- Witness for C2: an idle, unwanted service with deadline 10, woken by
a signal checked at instant 3, keeps its state and deadline. -/
theorem idle_early_wake_noop_witness :
    Service.step ⟨true, RunState.Idle, false, false, ⟨10, true⟩⟩
        ⟨0, 0, .signaled 3, .ok, .ok, .ok⟩
      = Except.ok ⟨true, RunState.Idle, false, false, ⟨10, false⟩⟩ :=
  idle_early_wake_noop _ _ rfl rfl rfl (by norm_num) 3 rfl (by norm_num)

/-- C4: a restart signal raised by worker_run moves the state to
Stopping with the wait deadline rescheduled one second past the reset
instant; any other exception from worker_run moves the state to
Stopping with the deadline reset to the instant itself (zero delay);
and no outcome of worker_start or worker_stop makes the Starting or
Stopping iteration propagate an error out of the loop. -/
theorem hook_exception_containment (s : ServiceState) (o : StepOracle) :
    (s.state = RunState.Running → s.wanted = true →
      o.runResult = HookResult.restartSignal →
      Service.step s o = Except.ok
        ⟨s.running, RunState.Stopping, s.wanted, s.shutdownRequested, ⟨o.t1 + 1, s.ev.event⟩⟩)
    ∧ (s.state = RunState.Running → s.wanted = true →
        o.runResult ≠ HookResult.ok → o.runResult ≠ HookResult.restartSignal →
      Service.step s o = Except.ok
        ⟨s.running, RunState.Stopping, s.wanted, s.shutdownRequested, ⟨o.t1, s.ev.event⟩⟩)
    ∧ (s.state = RunState.Starting → ∃ s', Service.step s o = Except.ok s')
    ∧ (s.state = RunState.Stopping → ∃ s', Service.step s o = Except.ok s') := by
  refine ⟨?_, ?_, ?_, ?_⟩
  · intro h1 h2 h3
    unfold Service.step
    rw [h1]
    simp [h2, Service.attemptRun, h3, WaitableHoldoff.reset]
  · intro h1 h2 h3 h4
    unfold Service.step
    rw [h1]
    cases hr : o.runResult with
    | ok => exact absurd hr h3
    | restartSignal => exact absurd hr h4
    | stoppedError => simp [h2, Service.attemptRun, hr, WaitableHoldoff.reset]
    | timeoutError => simp [h2, Service.attemptRun, hr, WaitableHoldoff.reset]
    | otherError => simp [h2, Service.attemptRun, hr, WaitableHoldoff.reset]
  · intro h1
    unfold Service.step
    rw [h1]
    dsimp only
    split
    · exact ⟨_, rfl⟩
    · exact ⟨_, rfl⟩
  · intro h1
    unfold Service.step
    rw [h1]
    dsimp only
    split
    · exact ⟨_, rfl⟩
    · exact ⟨_, rfl⟩

/-- Witness for C4: a running, wanted service whose worker raises the
restart signal ends the iteration Stopping with deadline one second
after the reset instant 7. -/
theorem hook_exception_containment_witness :
    Service.step ⟨true, RunState.Running, true, false, ⟨0, false⟩⟩
        ⟨0, 7, .timeout, .ok, .restartSignal, .ok⟩
      = Except.ok ⟨true, RunState.Stopping, true, false, ⟨7 + 1, false⟩⟩ :=
  (hook_exception_containment _ _).1 rfl rfl rfl

theorem stopPhase_all_no_join (l : List (String × SvcHandle)) :
    ((stopPhase l).all fun e => !isJoin e) = true := by
  induction l with
  | nil => rfl
  | cons p rest ih =>
      simp only [stopPhase, List.all_append, ih, Bool.and_true]
      by_cases hp : p.2.rstate ≠ RunState.Stopped
      · rw [if_pos hp]; rfl
      · rw [if_neg hp]; rfl

theorem awaitPhase_all_no_join (l : List (String × SvcHandle)) :
    ((awaitPhase l).all fun e => !isJoin e) = true := by
  induction l with
  | nil => rfl
  | cons p rest ih =>
      simp only [awaitPhase, List.all_cons, ih, Bool.and_true]
      rfl

theorem stopPhase_stopNames (l : List (String × SvcHandle)) :
    (stopPhase l).filterMap stopName
      = (l.filter fun p => decide (p.2.rstate ≠ RunState.Stopped)).map Prod.fst := by
  induction l with
  | nil => rfl
  | cons p rest ih =>
      by_cases hp : p.2.rstate = RunState.Stopped
      · simp only [stopPhase, if_neg (not_not_intro hp), List.filter_cons]
        simp [hp, ih]
      · simp only [stopPhase, if_pos hp, List.filterMap_append, List.filter_cons]
        simp [stopName, hp, ih]

theorem stopPhase_awaitNames (l : List (String × SvcHandle)) :
    (stopPhase l).filterMap awaitName = [] := by
  induction l with
  | nil => rfl
  | cons p rest ih =>
      by_cases hp : p.2.rstate ≠ RunState.Stopped
      · simp only [stopPhase, if_pos hp, List.filterMap_append, ih]
        simp [awaitName]
      · simp only [stopPhase, if_neg hp, List.filterMap_append, ih]
        simp

theorem awaitPhase_awaitNames (l : List (String × SvcHandle)) :
    (awaitPhase l).filterMap awaitName = l.map Prod.fst := by
  induction l with
  | nil => rfl
  | cons p rest ih => simp [awaitPhase, awaitName, ih]

theorem awaitPhase_stopNames (l : List (String × SvcHandle)) :
    (awaitPhase l).filterMap stopName = [] := by
  induction l with
  | nil => rfl
  | cons p rest ih => simp [awaitPhase, stopName, ih]

theorem joinPhase_map (l : List (String × SvcHandle)) :
    joinPhase l = l.map fun p => ExitEv.shutdownEv p.1 := by
  induction l with
  | nil => rfl
  | cons p rest ih => simp [joinPhase, ih]

/-- C7: the atexit trace splits as a prefix a (the first dump, the
thread dump, the stop loop over exactly the not-yet-Stopped services in
registration order, and a dump) followed by b (the awaitStopped loop
over every registered service in registration order, and a dump)
followed by the shutdown (join) loop over every registered service in
registration order; no join event occurs anywhere in a or b, so no
service is joined before every service has been asked to stop and has
been awaited. -/
theorem atexit_join_ordering (m : MgrState) :
    ∃ a b, atexitTrace m = a ++ b ++ (m.svcs.map fun p => ExitEv.shutdownEv p.1)
      ∧ ((a ++ b).all fun e => !isJoin e) = true
      ∧ a.filterMap stopName
          = (m.svcs.filter fun p => decide (p.2.rstate ≠ RunState.Stopped)).map Prod.fst
      ∧ a.filterMap awaitName = []
      ∧ b.filterMap awaitName = m.svcs.map Prod.fst
      ∧ b.filterMap stopName = [] := by
  refine ⟨[ExitEv.dump, ExitEv.traceAll] ++ stopPhase m.svcs ++ [ExitEv.dump],
          awaitPhase m.svcs ++ [ExitEv.dump], ?_, ?_, ?_, ?_, ?_, ?_⟩
  · simp [atexitTrace, joinPhase_map, List.append_assoc]
  · simp only [List.all_append, stopPhase_all_no_join, awaitPhase_all_no_join,
      List.all_cons, List.all_nil, Bool.and_true, Bool.true_and, Bool.and_self]
    rfl
  · simp [List.filterMap_append, stopPhase_stopNames, stopName]
  · simp [List.filterMap_append, stopPhase_awaitNames, awaitName]
  · simp [List.filterMap_append, awaitPhase_awaitNames, awaitName]
  · simp [List.filterMap_append, awaitPhase_stopNames, stopName]

/-- C8: borrow restores the refcount of the borrowed name to its
pre-call value on every exit path: when the readiness wait inside get
fails, when the scoped block returns normally, and when the scoped
block raises, provided the block itself leaves the name registered and
its refcount untouched. -/
theorem borrow_restores_refcount (m : MgrState) (name : String) (h : SvcHandle) (r : Int)
    (hs : alookup m.svcs name = some h) (hr : alookup m.refs name = some r)
    (hr0 : 0 ≤ r) (fails : Bool) (body : MgrState → MgrState × Option PyExc)
    (hbodyS : ∀ mm, (alookup (body mm).1.svcs name).isSome
        = (alookup mm.svcs name).isSome)
    (hbodyR : ∀ mm, alookup (body mm).1.refs name = alookup mm.refs name) :
    alookup (ServiceManager.borrow m name fails body).1.refs name = some r := by
  unfold ServiceManager.borrow
  cases fails with
  | true =>
      have hT := (get_spec m name h r hs hr hr0 true).2 rfl
      dsimp only
      rw [hT.1]
      exact hT.2.1
  | false =>
      have hF := (get_spec m name h r hs hr hr0 false).1 rfl
      dsimp only
      rw [hF.1]
      have hS2 : (alookup (body (ServiceManager.get m name true false).1).1.svcs name).isSome
          = true := by
        rw [hbodyS, hF.2.2]
        rfl
      have hR2 : alookup (body (ServiceManager.get m name true false).1).1.refs name
          = some (r + 1) := by
        rw [hbodyR, hF.2.1]
      have hput := put_spec _ name hS2 (r + 1) hR2 (by omega)
      rw [hput.1]
      rw [hput.2.1, alookup_aset, hR2]
      have : r + 1 - 1 = r := by omega
      rw [this]
      rfl

/-- Witness for C8: borrowing the registered name a with a scoped block
that does nothing leaves the refcount at its pre-call value 0. -/
theorem borrow_restores_refcount_witness :
    alookup (ServiceManager.borrow ⟨[("a", newHandle)], [("a", 0)]⟩ "a" false
        fun mm => (mm, none)).1.refs "a" = some 0 :=
  borrow_restores_refcount ⟨[("a", newHandle)], [("a", 0)]⟩ "a" newHandle 0
    (by decide) (by decide) le_rfl false _ (fun mm => rfl) (fun mm => rfl)

/-- C10: await_ready checks the running and wanted flags before the
state, so a snapshot with running false or wanted false makes it raise
the stopped error even when the state in that same snapshot is already
Running. -/
theorem await_ready_flags_first (pre : List Obs) (ob : Obs) (rest : List Obs)
    (hpre : ∀ p ∈ pre, p.running = true ∧ p.wanted = true ∧ p.state ≠ RunState.Running)
    (hob : ob.running = false ∨ ob.wanted = false) :
    await_ready (pre ++ ob :: rest) = some (Except.error PyExc.serviceStoppedError) := by
  induction pre with
  | nil =>
      rcases hob with hca | hca <;> simp [await_ready, hca]
  | cons q qs ih =>
      obtain ⟨h1, h2, h3⟩ := hpre q (List.mem_cons_self q qs)
      simp only [List.cons_append, await_ready, h1, h2, h3]
      simp only [Bool.and_self, if_false, if_neg, not_false_iff]
      exact ih fun p hp => hpre p (List.mem_cons_of_mem q hp)

/-- Witness for C10: one snapshot with running true, wanted false and
state Running makes await_ready raise the stopped error. -/
theorem await_ready_flags_first_witness :
    await_ready [⟨true, false, RunState.Running⟩]
      = some (Except.error PyExc.serviceStoppedError) :=
  await_ready_flags_first [] ⟨true, false, RunState.Running⟩ []
    (by intro p hp; simp at hp) (Or.inr rfl)

end ServicePy
